import Mathlib

/-!
Shallow embedding of the MedXpert report-processing pipeline:
the value extractor and abnormality analyzer (api/abnormality_checker.py),
the pipeline orchestrator and report store (api/report_processor.py),
the chat endpoint (api/chatbot.py), and the text extraction utilities
(utils/pdf_utils.py, utils/ocr_utils.py).

External collaborators (pdfplumber, the Tesseract OCR stack, the OpenAI chat
model, and json.loads) are modelled by their observable outcomes: a value of
type `Except String A` stands for "returned normally with an A" versus
"raised an exception whose message is the string".  Functions that may query
the LLM additionally return the list of requests they sent, so that
"performs no LLM call" is the statement that this list is empty.
-/

namespace MedXpert

/-- JSON-like values: the shape of the Python dict/list data flowing through
the pipeline (results of `json.loads`, response payloads of the endpoints). -/
inductive JVal where
  | null
  | bool (b : Bool)
  | num (n : Int)
  | str (s : String)
  | arr (elems : List JVal)
  | obj (fields : List (String × JVal))

/-- Whether a JSON object value carries a given key (Python `k in d`). -/
def JVal.hasKey (j : JVal) (k : String) : Bool :=
  match j with
  | .obj fields => fields.any (fun p => p.1 == k)
  | _ => false

/-! ## Value Extractor (api/abnormality_checker.py, extract_medical_values)

The Python code runs
`re.findall(r"([\w\s()%-]+)[\s:-]+([\d.]+)\s*(g/dL|mg/dL|%|x10\^?\d*/?L?)?", text)`
and folds the matches into a dict.  We embed that exact pattern as a direct
matcher over `List Char`, mirroring the `re` module semantics for this
pattern: leftmost match position, greedy label run with backtracking,
greedy separator / number / whitespace runs, alternatives of the optional
unit group tried in order. -/

/-- Characters matched by the regex class backslash-s (Python whitespace). -/
def isSpaceChar (c : Char) : Bool :=
  c == ' ' || c == '\t' || c == '\n' || c == '\r' || c == '\x0b' || c == '\x0c'

/-- Characters matched by the regex class backslash-w (ASCII reading). -/
def isWordChar (c : Char) : Bool :=
  c.isAlphanum || c == '_'

/-- Characters of the label class in the pattern: word characters,
whitespace, parentheses, percent and hyphen. -/
def isLabelChar (c : Char) : Bool :=
  isWordChar c || isSpaceChar c || c == '(' || c == ')' || c == '%' || c == '-'

/-- Characters of the separator class: whitespace, colon and hyphen. -/
def isSepChar (c : Char) : Bool :=
  isSpaceChar c || c == ':' || c == '-'

/-- Characters of the numeric-value class: digits and the decimal point. -/
def isValueChar (c : Char) : Bool :=
  c.isDigit || c == '.'

/-- One regex match: the three capture groups (label, numeric value, unit).
An absent optional unit group is the empty list. -/
structure RegexMatch where
  label : List Char
  value : List Char
  unit : List Char
deriving DecidableEq

/-- Match a literal character sequence at the head of the input, returning
the rest of the input on success. -/
def stripLit : List Char → List Char → Option (List Char)
  | [], s => some s
  | _ :: _, [] => none
  | l :: ls, c :: cs => if c = l then stripLit ls cs else none

/-- Match an optional single literal character (a `?`-quantified literal):
consume the head when it equals `c`, else consume nothing. -/
def takeOpt (c : Char) (s : List Char) : List Char × List Char :=
  match s with
  | x :: r => if x = c then ([x], r) else ([], x :: r)
  | [] => ([], [])

/-- Match the tail of the exponent unit alternative after the literal `x10`:
an optional caret, a digit run, an optional slash, an optional `L`
(each part greedy).  Returns the matched characters and the rest. -/
def matchX10Tail (s : List Char) : List Char × List Char :=
  let caret := takeOpt '^' s
  let ds := caret.2.takeWhile Char.isDigit
  let s2 := caret.2.drop ds.length
  let slash := takeOpt '/' s2
  let ell := takeOpt 'L' slash.2
  (caret.1 ++ ds ++ slash.1 ++ ell.1, ell.2)

/-- Match the optional unit group, trying the alternatives in the order of
the pattern: `g/dL`, `mg/dL`, `%`, then the `x10...` exponent form.
Returns the matched unit characters and the rest of the input. -/
def matchUnit (s : List Char) : Option (List Char × List Char) :=
  match stripLit "g/dL".toList s with
  | some r => some ("g/dL".toList, r)
  | none =>
    match stripLit "mg/dL".toList s with
    | some r => some ("mg/dL".toList, r)
    | none =>
      match stripLit "%".toList s with
      | some r => some ("%".toList, r)
      | none =>
        match stripLit "x10".toList s with
        | some r =>
          let t := matchX10Tail r
          some ("x10".toList ++ t.1, t.2)
        | none => none

/-- Match the pattern after a fixed label group: the separator run (at
least one separator character), the numeric value run (at least one value
character), trailing whitespace, then the optional unit group.  The
separator run and the value run need no backtracking of their own: the
separator class and the value class are disjoint, so shrinking the
separator can never create a value match. -/
def tryTail (lbl rest : List Char) : Option (RegexMatch × List Char) :=
  let sep := rest.takeWhile isSepChar
  let afterSep := rest.drop sep.length
  let value := afterSep.takeWhile isValueChar
  if sep.length > 0 ∧ value ≠ [] then
    let afterVal := afterSep.drop value.length
    let ws := afterVal.takeWhile isSpaceChar
    let afterWs := afterVal.drop ws.length
    match matchUnit afterWs with
    | some (u, rest2) => some (⟨lbl, value, u⟩, rest2)
    | none => some (⟨lbl, value, []⟩, afterWs)
  else none

/-- Try to complete a match whose label group takes exactly `k` characters
of `s`; on failure backtrack to shorter labels (the label class is greedy,
so the regex engine tries the longest label first and shrinks it until the
rest of the pattern matches). -/
def tryLabelLen : Nat → List Char → Option (RegexMatch × List Char)
  | 0, _ => none
  | k + 1, s =>
    match tryTail (s.take (k + 1)) (s.drop (k + 1)) with
    | some result => some result
    | none => tryLabelLen k s

/-- Try to match the pattern at the head of `s`: the label group must
consume at least one character; greedy, so the maximal label run is tried
first. -/
def tryMatchAt (s : List Char) : Option (RegexMatch × List Char) :=
  tryLabelLen (s.takeWhile isLabelChar).length s

/-- Scan for all non-overlapping matches left to right (re.findall):
at each position try to match; on success continue after the match, on
failure advance one character.  The fuel argument bounds the number of
steps; every step consumes at least one character, so `s.length` fuel is
always enough (see `findAllAux_fuel_irrelevant`). -/
def findAllAux : Nat → List Char → List RegexMatch
  | 0, _ => []
  | _ + 1, [] => []
  | fuel + 1, c :: cs =>
    match tryMatchAt (c :: cs) with
    | some (m, rest) => m :: findAllAux fuel rest
    | none => findAllAux fuel cs

/-- All matches of the medical-value pattern in `s` (re.findall). -/
def findAllMatches (s : List Char) : List RegexMatch :=
  findAllAux s.length s

/-- Python str.strip: drop leading and trailing whitespace. -/
def pyStrip (s : List Char) : List Char :=
  ((s.dropWhile isSpaceChar).reverse.dropWhile isSpaceChar).reverse

/-- One dict entry from one match, mirroring the loop body:
`parameter = parameter.strip()`, `value = value.strip()`,
`unit = unit.strip() if unit else ""`, and the stored value is
`f-string of value, space, unit` stripped. -/
def entryOf (m : RegexMatch) : String × String :=
  let parameter := pyStrip m.label
  let value := pyStrip m.value
  let unit := pyStrip m.unit
  (String.mk parameter, String.mk (pyStrip (value ++ [' '] ++ unit)))

/-- Python dict assignment `d[k] = v`: update the value in place if the key
is present (keeping its position), append a new entry otherwise. -/
def dictInsert (m : List (String × String)) (k v : String) :
    List (String × String) :=
  if m.any (fun p => p.1 == k) then
    m.map (fun p => if p.1 = k then (k, v) else p)
  else
    m ++ [(k, v)]

/-- Read a dict: the value at the first entry whose key is `k`. -/
def dlookup (k : String) : List (String × String) → Option String
  | [] => none
  | (a, b) :: rest => if a = k then some b else dlookup k rest

/-- Embedding of `extract_medical_values`: find all pattern matches, then
fold them into a dict, later matches with an equal trimmed label
overwriting earlier ones. -/
def extract_medical_values (text : String) : List (String × String) :=
  (findAllMatches text.toList).foldl
    (fun extracted m =>
      let e := entryOf m
      dictInsert extracted e.1 e.2) []

/-! ## Abnormality Analyzer (api/abnormality_checker.py, detect_abnormalities_llm) -/

/-- Escape a character for a JSON string literal (the common cases of the
json.dumps encoder; control characters other than the named escapes do not
occur in the texts of interest). -/
def jsonEscapeChar (c : Char) : String :=
  if c = '\\' then "\\\\"
  else if c = '"' then "\\\""
  else if c = '\n' then "\\n"
  else if c = '\t' then "\\t"
  else if c = '\r' then "\\r"
  else String.singleton c

/-- Escape a string for a JSON string literal. -/
def jsonEscape (s : String) : String :=
  s.foldl (fun acc c => acc ++ jsonEscapeChar c) ""

/-- Model of `json.dumps(d, indent=2)` for a string-to-string dict. -/
def jsonDumpsPairs (m : List (String × String)) : String :=
  match m with
  | [] => "\x7b\x7d"
  | _ =>
    "\x7b\n"
      ++ String.intercalate ",\n"
          (m.map (fun p => "  \"" ++ jsonEscape p.1 ++ "\": \"" ++ jsonEscape p.2 ++ "\""))
      ++ "\n\x7d"

/-- The instruction prompt built by `detect_abnormalities_llm`: the Python
f-string with the dumped parameter map interpolated. -/
def abnormalityPrompt (extracted_values : List (String × String)) : String :=
  "\n    The following are medical test results extracted from a patient\x27s report:\n\n    "
    ++ jsonDumpsPairs extracted_values
    ++ "\n\n    Based on your medical knowledge, analyze these values and:\n"
    ++ "    - Identify any abnormal values.\n"
    ++ "    - Explain why they might be concerning.\n"
    ++ "    - Suggest possible medical conditions related to abnormalities.\n"
    ++ "    - Provide recommendations for further medical consultation.\n\n"
    ++ "    Respond in valid JSON format without additional text:\n"
    ++ "    \x7b\n      \"abnormalities\": [\n        \x7b\n"
    ++ "          \"parameter\": \"<Test Name>\",\n"
    ++ "          \"value\": \"<Test Value>\",\n"
    ++ "          \"explanation\": \"<Reason why it\x27s abnormal>\",\n"
    ++ "          \"possible_conditions\": [\"Condition 1\", \"Condition 2\"],\n"
    ++ "          \"recommendations\": \"Suggested medical advice\"\n"
    ++ "        \x7d\n      ]\n    \x7d\n    "

/-- Observable behaviour of the external collaborators used inside the
try-block of `detect_abnormalities_llm`: the LLM call
(`llm.invoke(prompt).content`, which may raise) and `json.loads` applied to
the response (which may raise on malformed JSON).  An honest instantiation
gives `jsonLoads` the behaviour of the Python json module on the strings it
is actually applied to. -/
structure Backend where
  invoke : String → Except String String
  jsonLoads : String → Except String JVal

/-- Embedding of `detect_abnormalities_llm`.  Returns the produced Python
value together with the list of prompts sent to the LLM (empty when no LLM
call is performed).  The try-block around the LLM call and the JSON parse
turns either exception into the `LLM analysis failed` error payload, so the
function is total: no exception escapes. -/
def detect_abnormalities_llm (be : Backend) (text : String) :
    JVal × List String :=
  let extracted_values := extract_medical_values text
  if extracted_values = [] then
    (JVal.obj [("message", JVal.str "No medical values found for analysis.")], [])
  else
    let prompt := abnormalityPrompt extracted_values
    match be.invoke prompt with
    | .error e =>
      (JVal.obj [("error", JVal.str ("LLM analysis failed: " ++ e))], [prompt])
    | .ok response =>
      match be.jsonLoads response with
      | .error e =>
        (JVal.obj [("error", JVal.str ("LLM analysis failed: " ++ e))], [prompt])
      | .ok parsed_response => (parsed_response, [prompt])

/-! ## Text Extractor (utils/pdf_utils.py, utils/ocr_utils.py) -/

/-- Python str.strip() on a String (same whitespace set as `pyStrip`). -/
def pyStripStr (s : String) : String :=
  String.mk (pyStrip s.toList)

/-- The page loop of `extract_text_from_pdf`: starting from the empty
string, append every page text followed by a newline.  A page with no text
contributes only its separator (pdfplumber, from version 0.6.0 on, returns
the empty string rather than None for such a page). -/
def pdfRawConcat (pages : List String) : String :=
  pages.foldl (fun text page => text ++ page ++ "\n") ""

/-- Text of a successfully opened PDF: the page loop followed by
`.strip()`. -/
def pdfPagesText (pages : List String) : String :=
  pyStripStr (pdfRawConcat pages)

/-- Embedding of `extract_text_from_pdf`.  The argument is the outcome of
`pdfplumber.open` on the byte stream: the list of page texts, or the raised
exception.  The function body contains no try-block, so a backend exception
propagates to the caller unchanged. -/
def extract_text_from_pdf (openResult : Except String (List String)) :
    Except String String :=
  match openResult with
  | .error e => .error e
  | .ok pages => .ok (pdfPagesText pages)

/-- Embedding of `extract_text_from_image`.  The argument is the outcome of
the decode-plus-OCR pipeline (`Image.open` then `image_to_string`): the
recognized text, or the raised exception.  The try-block maps any exception
to None (logged, not raised); on success the text is stripped. -/
def extract_text_from_image (ocrResult : Except String String) :
    Option String :=
  match ocrResult with
  | .ok text => some (pyStripStr text)
  | .error _ => none

/-! ## Report Store and Pipeline Orchestrator (api/report_processor.py) -/

/-- The value stored in the single-slot Report Store (`latest_report`):
the summary and the abnormality-analysis result of one pipeline run. -/
structure Report where
  summary : String
  abnormalities : JVal

/-- One outbound LLM request of the pipeline: the map-reduce summarization
chain run, or the abnormality-analysis prompt. -/
inductive LLMCall where
  | summarize
  | abnormality (prompt : String)

/-- Observable behaviour of the collaborators of one upload request: the
uploaded filename, the outcome of `pdfplumber.open` on the file bytes, the
outcome of the OCR pipeline on the file bytes, the outcome of
`summary_chain.run(docs)` (text splitting into 1000/200 chunks and the
map-reduce strategy are internal to this collaborator call), and the
abnormality-analysis backend. -/
structure UploadEnv where
  filename : String
  pdfOpenResult : Except String (List String)
  ocrResult : Except String String
  summarizeResult : Except String String
  backend : Backend

/-- Embedding of `extract_text`: dispatch on the file extension.  PDF
extraction has no exception handler anywhere below it, so its backend
exception passes through; OCR failures have already been mapped to None;
unsupported extensions yield None without touching either backend. -/
def extract_text (env : UploadEnv) (file_extension : String) :
    Except String (Option String) :=
  if file_extension = "pdf" then
    match extract_text_from_pdf env.pdfOpenResult with
    | .error e => .error e
    | .ok text => .ok (some text)
  else if file_extension ∈ ["png", "jpg", "jpeg"] then
    .ok (extract_text_from_image env.ocrResult)
  else
    .ok none

/-- Python `str.split(".")`: split into the dot-separated pieces (an input
with no dot yields the one-piece list holding the whole input, so the last
piece of a dotless filename is the filename itself, exactly as in Python). -/
def splitOnDot : List Char → List (List Char)
  | [] => [[]]
  | c :: cs =>
    if c = '.' then [] :: splitOnDot cs
    else
      match splitOnDot cs with
      | [] => [[c]]
      | w :: ws => (c :: w) :: ws

/-- Python `file.filename.split(".")[-1].lower()`. -/
def fileExtensionOf (filename : String) : String :=
  String.mk (((splitOnDot filename.toList).getLastD []).map Char.toLower)

/-- Embedding of `process_medical_report`.  Inputs: the collaborator
outcomes and the value of `latest_report` before the run.  Outputs: the
returned payload (or the propagated exception), the value of
`latest_report` after the run, and the LLM calls performed.  Python
truthiness of the extracted text (`if not extracted_text`) identifies None
and the empty string, which the `Option.getD` conflates faithfully. -/
def process_medical_report (env : UploadEnv) (latest_report : Option Report) :
    Except String JVal × Option Report × List LLMCall :=
  let file_extension := fileExtensionOf env.filename
  match extract_text env file_extension with
  | .error e => (.error e, latest_report, [])
  | .ok extractedOpt =>
    let extracted_text := extractedOpt.getD ""
    if extracted_text = "" then
      (.ok (JVal.obj [("error", JVal.str "Unsupported file format or no text found.")]),
       latest_report, [])
    else
      match env.summarizeResult with
      | .error e =>
        (.ok (JVal.obj [("error", JVal.str ("Summarization failed: " ++ e))]),
         latest_report, [.summarize])
      | .ok summary =>
        let res := detect_abnormalities_llm env.backend extracted_text
        (.ok (JVal.obj [("summary", JVal.str summary), ("abnormalities", res.1)]),
         some ⟨summary, res.1⟩,
         .summarize :: res.2.map LLMCall.abnormality)

/-- Embedding of `get_latest_report`: return the store slot. -/
def get_latest_report (latest_report : Option Report) : Option Report :=
  latest_report

/-! ## Chat endpoint (api/chatbot.py, chat_with_ai) -/

mutual

/-- Python `str()` of a parsed-JSON value, as interpolated into the chat
context f-string (dict and list display with single-quoted strings;
escape sequences inside string contents are not modelled). -/
def pyRepr : JVal → String
  | .null => "None"
  | .bool b => if b then "True" else "False"
  | .num n => toString n
  | .str s => "\x27" ++ s ++ "\x27"
  | .arr elems => "[" ++ pyReprElems elems ++ "]"
  | .obj fields => "\x7b" ++ pyReprFields fields ++ "\x7d"

/-- Comma-separated rendering of list elements. -/
def pyReprElems : List JVal → String
  | [] => ""
  | [x] => pyRepr x
  | x :: xs => pyRepr x ++ ", " ++ pyReprElems xs

/-- Comma-separated rendering of dict fields. -/
def pyReprFields : List (String × JVal) → String
  | [] => ""
  | [(k, v)] => "\x27" ++ k ++ "\x27: " ++ pyRepr v
  | (k, v) :: fs => "\x27" ++ k ++ "\x27: " ++ pyRepr v ++ ", " ++ pyReprFields fs

end

/-- The chatbot prompt built by `chat_with_ai` from the stored report and
the question. -/
def chatContext (report : Report) (question : String) : String :=
  "\n    User\x27s latest medical report summary:\n    "
    ++ report.summary
    ++ "\n\n    Detected abnormalities:\n    "
    ++ pyRepr report.abnormalities
    ++ "\n\n    User\x27s question: " ++ question ++ "\n    "

/-- Embedding of `chat_with_ai`.  Inputs: the LLM collaborator, the
question, and the Report Store contents (the store only ever holds None or
a two-field report, so Python falsiness of `report` is emptiness of the
option).  Outputs: the response payload or the propagated exception, and
the prompts sent.  The LLM call is not wrapped in any try-block, so its
exception escapes the endpoint. -/
def chat_with_ai (invoke : String → Except String String) (question : String)
    (latest_report : Option Report) : Except String JVal × List String :=
  match get_latest_report latest_report with
  | none =>
    (.ok (JVal.obj [("error", JVal.str "No medical report found. Please upload one first.")]),
     [])
  | some report =>
    let context := chatContext report question
    match invoke context with
    | .error e => (.error e, [context])
    | .ok content => (.ok (JVal.obj [("response", JVal.str content)]), [context])

/-! ## Concrete collaborator behaviours used by witnesses and counterexamples -/

/-- Backend whose collaborators are never reached. -/
def beUnused : Backend :=
  ⟨fun _ => .error "unused", fun _ => .error "unused"⟩

/-- Backend whose LLM call raises with message `boom`. -/
def beBoom : Backend :=
  ⟨fun _ => .error "boom", fun _ => .error "unused"⟩

/-- Backend whose LLM replies with the valid JSON text of the empty object;
`jsonLoads` behaves as the Python json module does on that string. -/
def beEmptyObj : Backend :=
  ⟨fun _ => .ok "\x7b\x7d",
   fun s => if s = "\x7b\x7d" then .ok (JVal.obj []) else .error "unused"⟩

/-- Upload of a `.txt` file: unsupported extension, no collaborator reached. -/
def envTxt : UploadEnv :=
  ⟨"report.txt", .error "unused", .error "unused", .error "unused", beUnused⟩

/-- Upload of a PDF with one page of text whose summarization raises. -/
def envSummFail : UploadEnv :=
  ⟨"r.pdf", .ok ["A: 1"], .error "unused", .error "nope", beBoom⟩

/-- Upload of a PDF with one page of text whose abnormality analysis fails. -/
def envAbnFail : UploadEnv :=
  ⟨"r.pdf", .ok ["A: 1"], .error "unused", .ok "S", beBoom⟩

example : extract_medical_values "Hemoglobin: 9.5 g/dL" =
    [("Hemoglobin", "9.5 g/dL")] := by decide

example : extract_medical_values "A: 1\nA: 2" = [("A", "2")] := by decide

example : extract_medical_values "WBC - 11.2 x10^9/L" =
    [("WBC -", "11.2 x10^9/L")] := by decide

example : extract_medical_values "???" = [] := by decide

example : extract_medical_values "" = [] := by decide

example : extract_medical_values "AB 12 g/dL" = [("AB", "12 g/dL")] := by decide

example : extract_medical_values "A-2-3" = [("A-2", "3")] := by decide

example : extract_medical_values "Platelets: 150 x10^3/L and WBC: 4.5" =
    [("Platelets", "150 x10^3/L"), ("and WBC", "4.5")] := by decide

example : extract_medical_values "x: 1.2.3 mg/dL" = [("x", "1.2.3 mg/dL")] := by
  decide

example : extract_medical_values "a(b)% - 5 %" = [("a(b)% -", "5 %")] := by
  decide

example : extract_medical_values "Sugar 99mg/dL" = [("Sugar", "99 mg/dL")] := by
  decide

example : extract_medical_values "T: 5 x10" = [("T", "5 x10")] := by decide

example : extract_medical_values "B: 3 gms" = [("B", "3")] := by decide

example : extract_medical_values "Hb: 9.5g/dL" = [("Hb", "9.5 g/dL")] := by
  decide

/-! ## Dict lemmas: reading a dict built by repeated assignment -/

theorem dlookup_append (k : String) (xs ys : List (String × String)) :
    dlookup k (xs ++ ys) =
      match dlookup k xs with
      | some v => some v
      | none => dlookup k ys := by
  induction xs with
  | nil => simp [dlookup]
  | cons p xs ih =>
    obtain ⟨a, b⟩ := p
    by_cases h : a = k
    · simp [dlookup, h]
    · simp [dlookup, h, ih]

theorem dlookup_eq_none_of_no_key (k : String) (m : List (String × String))
    (h : ¬ (m.any (fun p => p.1 == k) = true)) : dlookup k m = none := by
  induction m with
  | nil => rfl
  | cons p m ih =>
    obtain ⟨a, b⟩ := p
    simp only [List.any_cons, Bool.or_eq_true, not_or] at h
    have ha : a ≠ k := by simpa using h.1
    simp [dlookup, ha, ih h.2]

theorem dlookup_cons (a b k : String) (m : List (String × String)) :
    dlookup k ((a, b) :: m) = if a = k then some b else dlookup k m := rfl

theorem dlookup_map_update_ne (m : List (String × String)) (a v k : String)
    (hk : k ≠ a) :
    dlookup k (m.map (fun p => if p.1 = a then (a, v) else p)) =
      dlookup k m := by
  induction m with
  | nil => rfl
  | cons p m ih =>
    obtain ⟨x, y⟩ := p
    simp only [List.map_cons]
    by_cases hx : x = a
    · subst hx
      rw [if_pos rfl, dlookup_cons, dlookup_cons,
        if_neg (Ne.symm hk), if_neg (Ne.symm hk), ih]
    · rw [if_neg hx, dlookup_cons, dlookup_cons, ih]

theorem dlookup_map_update_eq (m : List (String × String)) (a v : String)
    (h : m.any (fun p => p.1 == a) = true) :
    dlookup a (m.map (fun p => if p.1 = a then (a, v) else p)) = some v := by
  induction m with
  | nil => simp at h
  | cons p m ih =>
    obtain ⟨x, y⟩ := p
    simp only [List.map_cons]
    by_cases hx : x = a
    · subst hx
      rw [if_pos rfl, dlookup_cons, if_pos rfl]
    · have h' : m.any (fun p => p.1 == a) = true := by
        simp only [List.any_cons] at h
        rcases Bool.or_eq_true_iff.mp h with h1 | h2
        · exact absurd (by simpa using h1) hx
        · exact h2
      rw [if_neg hx, dlookup_cons, if_neg hx, ih h']

theorem dlookup_dictInsert (m : List (String × String)) (a v k : String) :
    dlookup k (dictInsert m a v) = if a = k then some v else dlookup k m := by
  unfold dictInsert
  by_cases hmem : m.any (fun p => p.1 == a) = true
  · rw [if_pos hmem]
    by_cases hk : a = k
    · subst hk
      rw [if_pos rfl, dlookup_map_update_eq m a v hmem]
    · rw [if_neg hk, dlookup_map_update_ne m a v k (Ne.symm hk)]
  · rw [if_neg hmem, dlookup_append]
    by_cases hk : a = k
    · subst hk
      have hnone := dlookup_eq_none_of_no_key a m hmem
      simp [hnone, dlookup]
    · cases hd : dlookup k m with
      | none => simp [hd, dlookup, hk]
      | some v' => simp [hd, hk]

theorem dlookup_foldl_dictInsert (es : List (String × String)) :
    ∀ (m : List (String × String)) (k : String),
      dlookup k (es.foldl (fun acc e => dictInsert acc e.1 e.2) m) =
        match es.reverse.find? (fun e => e.1 == k) with
        | some e => some e.2
        | none => dlookup k m := by
  induction es with
  | nil => intro m k; simp
  | cons e es ih =>
    intro m k
    simp only [List.foldl_cons, List.reverse_cons]
    rw [ih, List.find?_append]
    cases hf : es.reverse.find? (fun e => e.1 == k) with
    | some x => simp [Option.or]
    | none =>
      simp only [Option.or]
      rw [dlookup_dictInsert]
      by_cases hk : e.1 = k
      · simp [List.find?_cons, hk]
      · simp [List.find?_cons, hk]

/-- C8: for every input text, the map returned by extract_medical_values
holds, at each key, exactly the value of the LAST pattern match whose
trimmed label is that key (last-write-wins); in particular the text with
key `A: 1` followed by `A: 2` yields the one-entry map of `A` to `2`. -/
theorem c8_last_write_wins :
    (∀ (text k : String),
        dlookup k (extract_medical_values text) =
          (((findAllMatches text.toList).map entryOf).reverse.find?
              (fun e => e.1 == k)).map Prod.snd) ∧
    extract_medical_values "A: 1\nA: 2" = [("A", "2")] := by
  constructor
  · intro text k
    have hrw : extract_medical_values text =
        ((findAllMatches text.toList).map entryOf).foldl
          (fun acc e => dictInsert acc e.1 e.2) [] := by
      unfold extract_medical_values
      rw [List.foldl_map]
    rw [hrw, dlookup_foldl_dictInsert]
    cases hf : ((findAllMatches text.toList).map entryOf).reverse.find?
        (fun e => e.1 == k) with
    | none => simp [dlookup]
    | some x => simp
  · decide

/-- C10: a chat question asked while the Report Store is empty returns
exactly the no-report error payload and sends no LLM request. -/
theorem c10_chat_empty_store (invoke : String → Except String String)
    (question : String) :
    chat_with_ai invoke question none =
      (.ok (JVal.obj [("error",
          JVal.str "No medical report found. Please upload one first.")]),
       []) := rfl

/-- C4: whenever extract_medical_values returns the empty map,
detect_abnormalities_llm returns exactly the no-values message and performs
no LLM invocation (its request list is empty). -/
theorem c4_no_values_message (be : Backend) (text : String)
    (h : extract_medical_values text = []) :
    detect_abnormalities_llm be text =
      (JVal.obj [("message", JVal.str "No medical values found for analysis.")],
       []) := by
  unfold detect_abnormalities_llm
  rw [if_pos h]

/-- C4 witness at the empty input text and an arbitrary backend. -/
theorem c4_witness :
    detect_abnormalities_llm beUnused "" =
      (JVal.obj [("message", JVal.str "No medical values found for analysis.")],
       []) :=
  c4_no_values_message beUnused "" rfl

/-- C5: on a text with a non-empty parameter map, if the LLM call raises or
its response fails to parse as JSON, detect_abnormalities_llm returns the
LLM-analysis-failed error payload carrying the exception message; the
function is total, so no exception propagates out of the analyzer. -/
theorem c5_analysis_error (be : Backend) (text e : String)
    (hne : extract_medical_values text ≠ [])
    (hfail : be.invoke (abnormalityPrompt (extract_medical_values text)) = .error e
      ∨ ∃ response,
          be.invoke (abnormalityPrompt (extract_medical_values text)) = .ok response
            ∧ be.jsonLoads response = .error e) :
    detect_abnormalities_llm be text =
      (JVal.obj [("error", JVal.str ("LLM analysis failed: " ++ e))],
       [abnormalityPrompt (extract_medical_values text)]) := by
  unfold detect_abnormalities_llm
  rw [if_neg hne]
  rcases hfail with h | ⟨response, h1, h2⟩
  · simp only [h]
  · simp only [h1, h2]

/-- C5 witness: analysis of `A: 1` against a backend whose LLM call raises
with message `boom`. -/
theorem c5_witness :
    detect_abnormalities_llm beBoom "A: 1" =
      (JVal.obj [("error", JVal.str ("LLM analysis failed: " ++ "boom"))],
       [abnormalityPrompt (extract_medical_values "A: 1")]) :=
  c5_analysis_error beBoom "A: 1" "boom" (by decide) (Or.inl rfl)

/-! ## PDF page concatenation lemmas -/

theorem foldl_pdf_shift (xs : List String) :
    ∀ s : String,
      xs.foldl (fun text page => text ++ page ++ "\n") s = s ++ pdfRawConcat xs := by
  induction xs with
  | nil =>
    intro s
    show s = s ++ pdfRawConcat []
    rw [show pdfRawConcat [] = "" from rfl, String.append_empty]
  | cons x xs ih =>
    intro s
    show xs.foldl _ (s ++ x ++ "\n") = s ++ pdfRawConcat (x :: xs)
    rw [ih]
    have hx : pdfRawConcat (x :: xs) = x ++ "\n" ++ pdfRawConcat xs := by
      show xs.foldl _ ("" ++ x ++ "\n") = _
      rw [ih, String.empty_append]
    rw [hx]
    simp [String.append_assoc]

/-- C6: a PDF page that yields no text contributes only its newline
separator; the document is still processed and every other page's text is
kept, the two sides of the empty page concatenated around the separator and
the whole trimmed. -/
theorem c6_empty_page_kept (pre post : List String) :
    extract_text_from_pdf (.ok (pre ++ "" :: post)) =
      .ok (pyStripStr (pdfRawConcat pre ++ "\n" ++ pdfRawConcat post)) := by
  have hsplit : pdfRawConcat (pre ++ "" :: post) =
      pdfRawConcat pre ++ "\n" ++ pdfRawConcat post := by
    show (pre ++ "" :: post).foldl (fun text page => text ++ page ++ "\n") "" = _
    rw [List.foldl_append, List.foldl_cons, foldl_pdf_shift]
    show pdfRawConcat pre ++ "" ++ "\n" ++ pdfRawConcat post = _
    rw [String.append_empty]
  show Except.ok (pyStripStr (pdfRawConcat (pre ++ "" :: post))) = _
  rw [hsplit]

/-! ## Stripping lemmas for the value formatting -/

theorem dropWhile_eq_self_of_all {p : Char → Bool} {s : List Char}
    (h : ∀ c ∈ s, p c = false) : s.dropWhile p = s := by
  cases s with
  | nil => rfl
  | cons c cs =>
    rw [List.dropWhile_cons, if_neg (by simp [h c (List.mem_cons_self c cs)])]

theorem not_space_of_value {c : Char} (h : isValueChar c = true) :
    isSpaceChar c = false := by
  cases hs : isSpaceChar c
  · rfl
  · exfalso
    simp only [isSpaceChar, Bool.or_eq_true, beq_iff_eq] at hs
    rcases hs with ((((h1 | h1) | h1) | h1) | h1) | h1 <;> subst h1 <;>
      revert h <;> decide

theorem pyStrip_eq_self_of_all {s : List Char}
    (h : ∀ c ∈ s, isSpaceChar c = false) : pyStrip s = s := by
  unfold pyStrip
  rw [dropWhile_eq_self_of_all h,
    dropWhile_eq_self_of_all (fun c hc => h c (List.mem_reverse.mp hc)),
    List.reverse_reverse]

theorem pyStrip_append_space {v : List Char} (hne : v ≠ [])
    (h : ∀ c ∈ v, isSpaceChar c = false) : pyStrip (v ++ [' ']) = v := by
  obtain ⟨a, t, rfl⟩ : ∃ a t, v = a :: t := by
    cases v with
    | nil => exact absurd rfl hne
    | cons a t => exact ⟨a, t, rfl⟩
  unfold pyStrip
  rw [List.cons_append, List.dropWhile_cons,
    if_neg (by simp [h a (List.mem_cons_self a t)])]
  have hrev : (a :: (t ++ [' '])).reverse = ' ' :: (t.reverse ++ [a]) := by simp
  rw [hrev, List.dropWhile_cons, if_pos (by decide)]
  have hall : ∀ c ∈ t.reverse ++ [a], isSpaceChar c = false := by
    intro c hc
    rcases List.mem_append.mp hc with hc | hc
    · exact h c (List.mem_cons_of_mem a (List.mem_reverse.mp hc))
    · rw [List.mem_singleton.mp hc]
      exact h a (List.mem_cons_self a t)
  rw [dropWhile_eq_self_of_all hall]
  simp

theorem pyStrip_sandwich (a b : Char) (mid : List Char)
    (ha : isSpaceChar a = false) (hb : isSpaceChar b = false) :
    pyStrip (a :: mid ++ [b]) = a :: mid ++ [b] := by
  unfold pyStrip
  rw [List.cons_append, List.dropWhile_cons, if_neg (by simp [ha])]
  have hrev : (a :: (mid ++ [b])).reverse = b :: (mid.reverse ++ [a]) := by simp
  rw [hrev, List.dropWhile_cons, if_neg (by simp [hb])]
  simp

theorem entryOf_value_format (m : RegexMatch) (hne : m.value ≠ [])
    (hval : ∀ c ∈ m.value, isValueChar c = true)
    (hunit : ∀ c ∈ m.unit, isSpaceChar c = false) :
    (entryOf m).2 =
      if m.unit = [] then String.mk m.value
      else String.mk (m.value ++ ' ' :: m.unit) := by
  obtain ⟨label, value, unit⟩ := m
  have hvns : ∀ c ∈ value, isSpaceChar c = false :=
    fun c hc => not_space_of_value (hval c hc)
  have hv : pyStrip value = value := pyStrip_eq_self_of_all hvns
  have hu : pyStrip unit = unit := pyStrip_eq_self_of_all hunit
  show String.mk (pyStrip (pyStrip value ++ [' '] ++ pyStrip unit)) = _
  rw [hv, hu]
  by_cases hun : unit = []
  · subst hun
    rw [if_pos rfl, List.append_nil, pyStrip_append_space hne hvns]
  · rw [if_neg hun]
    obtain ⟨us, ub, rfl⟩ : ∃ us ub, unit = us ++ [ub] := by
      rcases List.eq_nil_or_concat unit with h | ⟨L, x, hLx⟩
      · exact absurd h hun
      · exact ⟨L, x, by simpa [List.concat_eq_append] using hLx⟩
    obtain ⟨va, vt, rfl⟩ : ∃ va vt, value = va :: vt := by
      cases value with
      | nil => exact absurd rfl hne
      | cons va vt => exact ⟨va, vt, rfl⟩
    have hshape : (va :: vt) ++ [' '] ++ (us ++ [ub]) =
        va :: (vt ++ ' ' :: us) ++ [ub] := by
      simp
    rw [hshape, pyStrip_sandwich va ub (vt ++ ' ' :: us)
      (hvns va (List.mem_cons_self va vt)) (hunit ub (by simp))]
    congr 1
    simp

/-! ## Consumption bounds: every successful match consumes at least one
character, so length fuel is always enough for the scan -/

theorem takeOpt_length (c : Char) (s : List Char) :
    (takeOpt c s).2.length ≤ s.length := by
  cases s with
  | nil => exact Nat.le_refl _
  | cons x r =>
    simp only [takeOpt]
    by_cases h : x = c
    · rw [if_pos h]
      exact Nat.le_succ _
    · rw [if_neg h]

theorem takeOpt_mem (c : Char) (s : List Char) :
    ∀ x ∈ (takeOpt c s).1, x = c := by
  intro x hx
  cases s with
  | nil => simp [takeOpt] at hx
  | cons y r =>
    simp only [takeOpt] at hx
    by_cases h : y = c
    · rw [if_pos h] at hx
      have hxy := List.mem_singleton.mp hx
      rw [hxy]
      exact h
    · rw [if_neg h] at hx
      simp at hx

theorem drop_length_le (n : Nat) (l : List Char) :
    (l.drop n).length ≤ l.length := by
  rw [List.length_drop]
  omega

theorem matchX10Tail_length (s : List Char) :
    (matchX10Tail s).2.length ≤ s.length := by
  show (takeOpt 'L' (takeOpt '/'
      ((takeOpt '^' s).2.drop
        ((takeOpt '^' s).2.takeWhile Char.isDigit).length)).2).2.length ≤ s.length
  exact Nat.le_trans (takeOpt_length 'L' _)
    (Nat.le_trans (takeOpt_length '/' _)
      (Nat.le_trans (drop_length_le _ _) (takeOpt_length '^' s)))

theorem stripLit_length : ∀ (l s r : List Char),
    stripLit l s = some r → r.length ≤ s.length := by
  intro l
  induction l with
  | nil =>
    intro s r h
    simp only [stripLit, Option.some.injEq] at h
    rw [← h]
  | cons a l ih =>
    intro s r h
    cases s with
    | nil => simp [stripLit] at h
    | cons c cs =>
      simp only [stripLit] at h
      by_cases hc : c = a
      · rw [if_pos hc] at h
        exact Nat.le_trans (ih cs r h) (Nat.le_succ _)
      · rw [if_neg hc] at h
        cases h

theorem matchUnit_length (s u r : List Char) (h : matchUnit s = some (u, r)) :
    r.length ≤ s.length := by
  unfold matchUnit at h
  cases h1 : stripLit "g/dL".toList s with
  | some r1 =>
    rw [h1] at h
    simp only [Option.some.injEq, Prod.mk.injEq] at h
    rw [← h.2]
    exact stripLit_length _ _ _ h1
  | none =>
    rw [h1] at h
    cases h2 : stripLit "mg/dL".toList s with
    | some r2 =>
      rw [h2] at h
      simp only [Option.some.injEq, Prod.mk.injEq] at h
      rw [← h.2]
      exact stripLit_length _ _ _ h2
    | none =>
      rw [h2] at h
      cases h3 : stripLit "%".toList s with
      | some r3 =>
        rw [h3] at h
        simp only [Option.some.injEq, Prod.mk.injEq] at h
        rw [← h.2]
        exact stripLit_length _ _ _ h3
      | none =>
        rw [h3] at h
        cases h4 : stripLit "x10".toList s with
        | some r4 =>
          rw [h4] at h
          simp only [Option.some.injEq, Prod.mk.injEq] at h
          rw [← h.2]
          exact Nat.le_trans (matchX10Tail_length r4) (stripLit_length _ _ _ h4)
        | none =>
          rw [h4] at h
          cases h

theorem tryTail_length (lbl rest : List Char) (m : RegexMatch) (r2 : List Char)
    (h : tryTail lbl rest = some (m, r2)) : r2.length + 2 ≤ rest.length := by
  unfold tryTail at h
  simp only [] at h
  set A := rest.drop (rest.takeWhile isSepChar).length with hAd
  set V := A.takeWhile isValueChar with hVd
  set AV := A.drop V.length with hAVd
  set AW := AV.drop (AV.takeWhile isSpaceChar).length with hAWd
  by_cases hc : (rest.takeWhile isSepChar).length > 0 ∧ V ≠ []
  · rw [if_pos hc] at h
    obtain ⟨h0, hv⟩ := hc
    have e1 : AW.length ≤ AV.length := by
      rw [hAWd, List.length_drop]
      omega
    have e2 : AV.length = A.length - V.length := by
      rw [hAVd, List.length_drop]
    have e3 : 0 < V.length := List.length_pos.mpr hv
    have e4 : V.length ≤ A.length := by
      rw [hVd]
      exact List.Sublist.length_le (List.takeWhile_sublist _)
    have e5 : A.length = rest.length - (rest.takeWhile isSepChar).length := by
      rw [hAd, List.length_drop]
    have e6 : (rest.takeWhile isSepChar).length ≤ rest.length :=
      List.Sublist.length_le (List.takeWhile_sublist _)
    cases hU : matchUnit AW with
    | some p =>
      obtain ⟨u, rr⟩ := p
      simp only [hU, Option.some.injEq, Prod.mk.injEq] at h
      obtain ⟨hm, hr⟩ := h
      have e7 : rr.length ≤ AW.length := matchUnit_length AW u rr hU
      rw [← hr]
      omega
    | none =>
      simp only [hU, Option.some.injEq, Prod.mk.injEq] at h
      obtain ⟨hm, hr⟩ := h
      rw [← hr]
      omega
  · rw [if_neg hc] at h
    cases h

theorem tryLabelLen_length : ∀ (k : Nat) (s : List Char) (m : RegexMatch)
    (rest : List Char), tryLabelLen k s = some (m, rest) →
    rest.length < s.length := by
  intro k
  induction k with
  | zero =>
    intro s m rest h
    simp [tryLabelLen] at h
  | succ k ih =>
    intro s m rest h
    unfold tryLabelLen at h
    cases hT : tryTail (s.take (k + 1)) (s.drop (k + 1)) with
    | some result =>
      obtain ⟨mt, r2⟩ := result
      simp only [hT, Option.some.injEq, Prod.mk.injEq] at h
      obtain ⟨hm, hr⟩ := h
      subst hm
      subst hr
      have hlen := tryTail_length _ _ _ _ hT
      have hd : (s.drop (k + 1)).length = s.length - (k + 1) := List.length_drop _ _
      omega
    | none =>
      rw [hT] at h
      exact ih s m rest h

theorem tryMatchAt_length (s : List Char) (m : RegexMatch) (rest : List Char)
    (h : tryMatchAt s = some (m, rest)) : rest.length < s.length :=
  tryLabelLen_length _ s m rest h

theorem findAllAux_fuel_irrelevant : ∀ (n m : Nat) (s : List Char),
    s.length ≤ n → s.length ≤ m → findAllAux n s = findAllAux m s := by
  intro n
  induction n with
  | zero =>
    intro m s hn hm
    have hs : s = [] := List.eq_nil_of_length_eq_zero (Nat.le_zero.mp hn)
    subst hs
    cases m <;> rfl
  | succ n ih =>
    intro m s hn hm
    cases s with
    | nil => cases m <;> rfl
    | cons c cs =>
      cases m with
      | zero => simp at hm
      | succ m2 =>
        simp only [findAllAux]
        cases hT : tryMatchAt (c :: cs) with
        | some p =>
          obtain ⟨mt, rest⟩ := p
          have hr := tryMatchAt_length _ _ _ hT
          simp only [List.length_cons] at hn hm hr
          simp only [hT]
          rw [ih m2 rest (by omega) (by omega)]
        | none =>
          simp only [List.length_cons] at hn hm
          simp only [hT]
          exact ih m2 cs (by omega) (by omega)

/-! ## Shape of the matches the scan produces: the value group is a
non-empty run of value characters, the unit group holds no whitespace -/

theorem digit_not_space {c : Char} (h : c.isDigit = true) :
    isSpaceChar c = false :=
  not_space_of_value (by simp [isValueChar, h])

theorem matchX10Tail_not_space (s : List Char) :
    ∀ c ∈ (matchX10Tail s).1, isSpaceChar c = false := by
  intro c hc
  unfold matchX10Tail at hc
  rcases List.mem_append.mp hc with hc1 | hc1
  · rcases List.mem_append.mp hc1 with hc2 | hc2
    · rcases List.mem_append.mp hc2 with hc3 | hc3
      · have hce := takeOpt_mem '^' s c hc3
        subst hce
        decide
      · exact digit_not_space (List.mem_takeWhile_imp hc3)
    · have hce := takeOpt_mem '/' _ c hc2
      subst hce
      decide
  · have hce := takeOpt_mem 'L' _ c hc1
    subst hce
    decide

theorem matchUnit_not_space (s u r : List Char) (h : matchUnit s = some (u, r)) :
    ∀ c ∈ u, isSpaceChar c = false := by
  unfold matchUnit at h
  cases h1 : stripLit "g/dL".toList s with
  | some r1 =>
    rw [h1] at h
    simp only [Option.some.injEq, Prod.mk.injEq] at h
    rw [← h.1]
    decide
  | none =>
    rw [h1] at h
    cases h2 : stripLit "mg/dL".toList s with
    | some r2 =>
      rw [h2] at h
      simp only [Option.some.injEq, Prod.mk.injEq] at h
      rw [← h.1]
      decide
    | none =>
      rw [h2] at h
      cases h3 : stripLit "%".toList s with
      | some r3 =>
        rw [h3] at h
        simp only [Option.some.injEq, Prod.mk.injEq] at h
        rw [← h.1]
        decide
      | none =>
        rw [h3] at h
        cases h4 : stripLit "x10".toList s with
        | some r4 =>
          rw [h4] at h
          simp only [Option.some.injEq, Prod.mk.injEq] at h
          rw [← h.1]
          intro c hc
          rcases List.mem_append.mp hc with hc1 | hc1
          · have hx10 : ∀ x ∈ "x10".toList, isSpaceChar x = false := by decide
            exact hx10 c hc1
          · exact matchX10Tail_not_space r4 c hc1
        | none =>
          rw [h4] at h
          cases h

theorem tryTail_shape (lbl rest : List Char) (m : RegexMatch) (r2 : List Char)
    (h : tryTail lbl rest = some (m, r2)) :
    m.value ≠ [] ∧ (∀ c ∈ m.value, isValueChar c = true) ∧
      (∀ c ∈ m.unit, isSpaceChar c = false) := by
  unfold tryTail at h
  simp only [] at h
  set A := rest.drop (rest.takeWhile isSepChar).length with hAd
  set V := A.takeWhile isValueChar with hVd
  set AV := A.drop V.length with hAVd
  set AW := AV.drop (AV.takeWhile isSpaceChar).length with hAWd
  by_cases hc : (rest.takeWhile isSepChar).length > 0 ∧ V ≠ []
  · rw [if_pos hc] at h
    obtain ⟨h0, hv⟩ := hc
    cases hU : matchUnit AW with
    | some p =>
      obtain ⟨u, rr⟩ := p
      simp only [hU, Option.some.injEq, Prod.mk.injEq] at h
      obtain ⟨hm, hr⟩ := h
      subst hm
      refine ⟨hv, ?_, matchUnit_not_space _ _ _ hU⟩
      intro x hx
      have hx2 : x ∈ V := hx
      rw [hVd] at hx2
      exact List.mem_takeWhile_imp hx2
    | none =>
      simp only [hU, Option.some.injEq, Prod.mk.injEq] at h
      obtain ⟨hm, hr⟩ := h
      subst hm
      refine ⟨hv, ?_, ?_⟩
      · intro x hx
        have hx2 : x ∈ V := hx
        rw [hVd] at hx2
        exact List.mem_takeWhile_imp hx2
      · intro x hx
        simp at hx
  · rw [if_neg hc] at h
    cases h

theorem tryLabelLen_shape : ∀ (k : Nat) (s : List Char) (m : RegexMatch)
    (rest : List Char), tryLabelLen k s = some (m, rest) →
    m.value ≠ [] ∧ (∀ c ∈ m.value, isValueChar c = true) ∧
      (∀ c ∈ m.unit, isSpaceChar c = false) := by
  intro k
  induction k with
  | zero =>
    intro s m rest h
    simp [tryLabelLen] at h
  | succ k ih =>
    intro s m rest h
    unfold tryLabelLen at h
    cases hT : tryTail (s.take (k + 1)) (s.drop (k + 1)) with
    | some result =>
      obtain ⟨mt, r2⟩ := result
      simp only [hT, Option.some.injEq, Prod.mk.injEq] at h
      obtain ⟨hm, hr⟩ := h
      subst hm
      exact tryTail_shape _ _ _ _ hT
    | none =>
      rw [hT] at h
      exact ih s m rest h

theorem findAllAux_shape : ∀ (fuel : Nat) (s : List Char) (m : RegexMatch),
    m ∈ findAllAux fuel s →
    m.value ≠ [] ∧ (∀ c ∈ m.value, isValueChar c = true) ∧
      (∀ c ∈ m.unit, isSpaceChar c = false) := by
  intro fuel
  induction fuel with
  | zero =>
    intro s m hm
    simp [findAllAux] at hm
  | succ fuel ih =>
    intro s m hm
    cases s with
    | nil => simp [findAllAux] at hm
    | cons c cs =>
      simp only [findAllAux] at hm
      cases hT : tryMatchAt (c :: cs) with
      | some p =>
        obtain ⟨mt, rest⟩ := p
        simp only [hT] at hm
        rcases List.mem_cons.mp hm with hm1 | hm2
        · subst hm1
          exact tryLabelLen_shape _ _ _ _ hT
        · exact ih rest m hm2
      | none =>
        simp only [hT] at hm
        exact ih cs m hm

theorem findAllMatches_shape (s : List Char) (m : RegexMatch)
    (h : m ∈ findAllMatches s) :
    m.value ≠ [] ∧ (∀ c ∈ m.value, isValueChar c = true) ∧
      (∀ c ∈ m.unit, isSpaceChar c = false) :=
  findAllAux_shape s.length s m h

/-- C9: the Hemoglobin sample text extracts to exactly the one-entry map,
and in general every match the scan produces has as its entry value the
number followed by a space and the unit, with the unit and the
then-trailing space trimmed away when the unit group is absent. -/
theorem c9_hemoglobin_and_value_format :
    extract_medical_values "Hemoglobin: 9.5 g/dL" =
        [("Hemoglobin", "9.5 g/dL")] ∧
    (∀ (s : List Char) (m : RegexMatch), m ∈ findAllMatches s →
        (entryOf m).2 =
          if m.unit = [] then String.mk m.value
          else String.mk (m.value ++ ' ' :: m.unit)) := by
  refine ⟨by decide, ?_⟩
  intro s m hm
  obtain ⟨h1, h2, h3⟩ := findAllMatches_shape s m hm
  exact entryOf_value_format m h1 h2 h3

/-- C9 witness: the match of the Hemoglobin sample text itself. -/
theorem c9_witness :
    (entryOf ⟨"Hemoglobin".toList, "9.5".toList, "g/dL".toList⟩).2 =
      String.mk ("9.5".toList ++ ' ' :: "g/dL".toList) := by
  have h := c9_hemoglobin_and_value_format.2 "Hemoglobin: 9.5 g/dL".toList
    ⟨"Hemoglobin".toList, "9.5".toList, "g/dL".toList⟩ (by decide)
  rw [if_neg (by decide)] at h
  exact h

/-! ## Orchestrator control-flow lemmas, shared by several results -/

theorem process_empty_text (env : UploadEnv) (latest_report : Option Report)
    (h : extract_text env (fileExtensionOf env.filename) = .ok none ∨
         extract_text env (fileExtensionOf env.filename) = .ok (some "")) :
    process_medical_report env latest_report =
      (.ok (JVal.obj [("error",
          JVal.str "Unsupported file format or no text found.")]),
       latest_report, []) := by
  unfold process_medical_report
  rcases h with h | h <;> simp only [h] <;> rfl

theorem process_summarize_error (env : UploadEnv) (latest_report : Option Report)
    (t e : String)
    (hext : extract_text env (fileExtensionOf env.filename) = .ok (some t))
    (ht : t ≠ "") (hs : env.summarizeResult = .error e) :
    process_medical_report env latest_report =
      (.ok (JVal.obj [("error", JVal.str ("Summarization failed: " ++ e))]),
       latest_report, [.summarize]) := by
  unfold process_medical_report
  simp only [hext, Option.getD_some, if_neg ht, hs]

theorem process_success_writes (env : UploadEnv) (latest_report : Option Report)
    (t summary : String)
    (hext : extract_text env (fileExtensionOf env.filename) = .ok (some t))
    (ht : t ≠ "") (hs : env.summarizeResult = .ok summary) :
    process_medical_report env latest_report =
      (.ok (JVal.obj [("summary", JVal.str summary),
          ("abnormalities", (detect_abnormalities_llm env.backend t).1)]),
       some ⟨summary, (detect_abnormalities_llm env.backend t).1⟩,
       .summarize ::
         (detect_abnormalities_llm env.backend t).2.map LLMCall.abnormality) := by
  unfold process_medical_report
  simp only [hext, Option.getD_some, if_neg ht, hs]

/-- C3: extraction that yields null or the empty text (which every
unsupported extension does) makes the orchestrator return exactly the
unsupported-format error and perform no LLM call at all. -/
theorem c3_empty_extraction_short_circuit :
    (∀ (env : UploadEnv) (latest_report : Option Report),
        (extract_text env (fileExtensionOf env.filename) = .ok none ∨
         extract_text env (fileExtensionOf env.filename) = .ok (some "")) →
        process_medical_report env latest_report =
          (.ok (JVal.obj [("error",
              JVal.str "Unsupported file format or no text found.")]),
           latest_report, [])) ∧
    (∀ (env : UploadEnv) (ext : String),
        ext ≠ "pdf" → ¬ (ext ∈ ["png", "jpg", "jpeg"]) →
        extract_text env ext = .ok none) := by
  constructor
  · exact process_empty_text
  · intro env ext h1 h2
    unfold extract_text
    rw [if_neg h1, if_neg h2]

/-- C3 witness: uploading `report.txt` with no backend available at all. -/
theorem c3_witness :
    process_medical_report envTxt none =
      (.ok (JVal.obj [("error",
          JVal.str "Unsupported file format or no text found.")]),
       none, []) ∧
    extract_text envTxt "txt" = .ok none :=
  ⟨c3_empty_extraction_short_circuit.1 envTxt none (Or.inl rfl),
   c3_empty_extraction_short_circuit.2 envTxt "txt" (by decide) (by decide)⟩

/-- C1 counterexample: a run whose abnormality analysis fails does NOT
return an error-only object and DOES write the Report Store: the result
carries the summary and the embedded error payload, and the store changes
from its prior value None to the new report. -/
theorem c1_counterexample :
    (detect_abnormalities_llm beBoom "A: 1").1 =
        JVal.obj [("error", JVal.str "LLM analysis failed: boom")] ∧
    process_medical_report envAbnFail none =
      (.ok (JVal.obj [("summary", JVal.str "S"),
          ("abnormalities",
            JVal.obj [("error", JVal.str "LLM analysis failed: boom")])]),
       some ⟨"S", JVal.obj [("error", JVal.str "LLM analysis failed: boom")]⟩,
       [.summarize,
        .abnormality (abnormalityPrompt (extract_medical_values "A: 1"))]) ∧
    (process_medical_report envAbnFail none).2.1 ≠ none := by
  refine ⟨rfl, rfl, ?_⟩
  intro hcontra
  rw [show (process_medical_report envAbnFail none).2.1 =
      some ⟨"S", JVal.obj [("error", JVal.str "LLM analysis failed: boom")]⟩
    from rfl] at hcontra
  exact Option.noConfusion hcontra

/-- C1 amended: empty extraction and summarization failure short-circuit
with an error-only payload and leave the Report Store untouched; but once
summarization succeeds the pipeline always returns the summary together
with whatever the abnormality analysis produced (error payload included)
and always overwrites the Report Store with that report. -/
theorem c1_amended_store_policy :
    (∀ (env : UploadEnv) (latest_report : Option Report),
        (extract_text env (fileExtensionOf env.filename) = .ok none ∨
         extract_text env (fileExtensionOf env.filename) = .ok (some "")) →
        process_medical_report env latest_report =
          (.ok (JVal.obj [("error",
              JVal.str "Unsupported file format or no text found.")]),
           latest_report, [])) ∧
    (∀ (env : UploadEnv) (latest_report : Option Report) (t e : String),
        extract_text env (fileExtensionOf env.filename) = .ok (some t) →
        t ≠ "" → env.summarizeResult = .error e →
        process_medical_report env latest_report =
          (.ok (JVal.obj [("error", JVal.str ("Summarization failed: " ++ e))]),
           latest_report, [.summarize])) ∧
    (∀ (env : UploadEnv) (latest_report : Option Report) (t summary : String),
        extract_text env (fileExtensionOf env.filename) = .ok (some t) →
        t ≠ "" → env.summarizeResult = .ok summary →
        process_medical_report env latest_report =
          (.ok (JVal.obj [("summary", JVal.str summary),
              ("abnormalities", (detect_abnormalities_llm env.backend t).1)]),
           some ⟨summary, (detect_abnormalities_llm env.backend t).1⟩,
           .summarize ::
             (detect_abnormalities_llm env.backend t).2.map LLMCall.abnormality)) :=
  ⟨process_empty_text, process_summarize_error, process_success_writes⟩

/-- C1 witness: the three control-flow cases at concrete uploads. -/
theorem c1_witness :
    process_medical_report envSummFail none =
      (.ok (JVal.obj [("error", JVal.str ("Summarization failed: " ++ "nope"))]),
       none, [.summarize]) ∧
    process_medical_report envAbnFail none =
      (.ok (JVal.obj [("summary", JVal.str "S"),
          ("abnormalities", (detect_abnormalities_llm beBoom "A: 1").1)]),
       some ⟨"S", (detect_abnormalities_llm beBoom "A: 1").1⟩,
       .summarize ::
         (detect_abnormalities_llm beBoom "A: 1").2.map LLMCall.abnormality) :=
  ⟨c1_amended_store_policy.2.1 envSummFail none "A: 1" "nope" rfl (by decide) rfl,
   c1_amended_store_policy.2.2 envAbnFail none "A: 1" "S" rfl (by decide) rfl⟩

/-- C2 counterexample: on the text `A: 1` against an LLM that replies with
the valid JSON text of the empty object, the analyzer returns the empty
object, which carries none of the three discriminant keys. -/
theorem c2_counterexample :
    (detect_abnormalities_llm beEmptyObj "A: 1").1 = JVal.obj [] ∧
    JVal.hasKey (detect_abnormalities_llm beEmptyObj "A: 1").1 "abnormalities"
        = false ∧
    JVal.hasKey (detect_abnormalities_llm beEmptyObj "A: 1").1 "message"
        = false ∧
    JVal.hasKey (detect_abnormalities_llm beEmptyObj "A: 1").1 "error"
        = false :=
  ⟨rfl, rfl, rfl, rfl⟩

/-- C2 amended: the analyzer result is exactly one of three cases — the
fixed no-values message object, the fixed LLM-analysis-failed error object,
or, on success, WHATEVER JSON value the LLM response parses to (which need
not be an object containing an abnormalities key). -/
theorem c2_amended_result_shapes (be : Backend) (text : String) :
    (detect_abnormalities_llm be text).1 =
        JVal.obj [("message", JVal.str "No medical values found for analysis.")] ∨
    (∃ e, (detect_abnormalities_llm be text).1 =
        JVal.obj [("error", JVal.str ("LLM analysis failed: " ++ e))]) ∨
    (∃ response,
        be.invoke (abnormalityPrompt (extract_medical_values text)) =
            .ok response ∧
        be.jsonLoads response = .ok ((detect_abnormalities_llm be text).1)) := by
  by_cases hne : extract_medical_values text = []
  · left
    unfold detect_abnormalities_llm
    rw [if_pos hne]
  · cases hinv : be.invoke (abnormalityPrompt (extract_medical_values text)) with
    | error e =>
      right; left
      refine ⟨e, ?_⟩
      unfold detect_abnormalities_llm
      rw [if_neg hne]
      simp only [hinv]
    | ok response =>
      cases hjl : be.jsonLoads response with
      | error e =>
        right; left
        refine ⟨e, ?_⟩
        unfold detect_abnormalities_llm
        rw [if_neg hne]
        simp only [hinv, hjl]
      | ok v =>
        right; right
        refine ⟨response, rfl, ?_⟩
        unfold detect_abnormalities_llm
        rw [if_neg hne]
        simp only [hinv, hjl]

/-- C7 counterexample: two stages let their backend exception escape
unconverted — a PDF whose open raises propagates the raw exception, and a
chat LLM call that raises propagates the raw exception. -/
theorem c7_counterexample :
    extract_text_from_pdf (.error "PDFSyntaxError: No /Root object!") =
        .error "PDFSyntaxError: No /Root object!" ∧
    (chat_with_ai (fun _ => .error "APIConnectionError: Connection error.")
        "q" (some ⟨"S", JVal.arr []⟩)).1 =
      .error "APIConnectionError: Connection error." :=
  ⟨rfl, rfl⟩

/-- C7 amended: OCR extraction, summarization and abnormality analysis do
catch their backend exceptions and convert them to null or a structured
payload, but PDF text extraction and chat answering have no handler and
propagate the raw backend exception across the component boundary. -/
theorem c7_amended_exception_policy :
    (∀ e, extract_text_from_image (.error e) = none) ∧
    (∀ (env : UploadEnv) (latest_report : Option Report) (t e : String),
        extract_text env (fileExtensionOf env.filename) = .ok (some t) →
        t ≠ "" → env.summarizeResult = .error e →
        (process_medical_report env latest_report).1 =
          .ok (JVal.obj [("error",
              JVal.str ("Summarization failed: " ++ e))])) ∧
    (∀ (be : Backend) (text e : String),
        extract_medical_values text ≠ [] →
        be.invoke (abnormalityPrompt (extract_medical_values text)) = .error e →
        (detect_abnormalities_llm be text).1 =
          JVal.obj [("error", JVal.str ("LLM analysis failed: " ++ e))]) ∧
    (∀ e, extract_text_from_pdf (.error e) = .error e) ∧
    (∀ (invoke : String → Except String String) (question : String)
        (report : Report) (e : String),
        invoke (chatContext report question) = .error e →
        (chat_with_ai invoke question (some report)).1 = .error e) := by
  refine ⟨fun e => rfl, ?_, ?_, fun e => rfl, ?_⟩
  · intro env latest_report t e hext ht hs
    rw [process_summarize_error env latest_report t e hext ht hs]
  · intro be text e hne hinv
    unfold detect_abnormalities_llm
    rw [if_neg hne]
    simp only [hinv]
  · intro invoke question report e hinv
    unfold chat_with_ai
    simp only [get_latest_report, hinv]

/-- C7 witness: all five stages exercised at concrete backend faults. -/
theorem c7_witness :
    extract_text_from_image (.error "UnidentifiedImageError") = none ∧
    (process_medical_report envSummFail none).1 =
      .ok (JVal.obj [("error", JVal.str ("Summarization failed: " ++ "nope"))]) ∧
    (detect_abnormalities_llm beBoom "A: 1").1 =
      JVal.obj [("error", JVal.str ("LLM analysis failed: " ++ "boom"))] ∧
    extract_text_from_pdf (.error "PDFSyntaxError") = .error "PDFSyntaxError" ∧
    (chat_with_ai (fun _ => .error "APIConnectionError") "q"
        (some ⟨"S", JVal.arr []⟩)).1 = .error "APIConnectionError" :=
  ⟨c7_amended_exception_policy.1 "UnidentifiedImageError",
   c7_amended_exception_policy.2.1 envSummFail none "A: 1" "nope" rfl (by decide) rfl,
   c7_amended_exception_policy.2.2.1 beBoom "A: 1" "boom" (by decide) rfl,
   c7_amended_exception_policy.2.2.2.1 "PDFSyntaxError",
   c7_amended_exception_policy.2.2.2.2 (fun _ => .error "APIConnectionError") "q"
     ⟨"S", JVal.arr []⟩ "APIConnectionError" rfl⟩

end MedXpert
